import Mathlib

/-!
Shallow embedding of the `runo` terminal text editor (src/src/main.rs):
the text buffer (`Buffer` with `insert`, `remove`, `len`) and the editor
state machine (`Editor`, the action set `Actions`, and one iteration of
`Editor::work`'s action-application match).

Rendering-only state (`stdout`, `size`, `debug_text`, `first_print_x`,
and the display-column field `Editor.cx`, which is written only by
`draw`) is omitted: the claims are about the buffer and the logical
cursor (`Editor.cy`, `Buffer.cx`).

Rust `usize` arithmetic is modelled by `Nat`: the source only ever uses
`saturating_sub` or guarded `+ 1` / `- 1`, and `Nat` subtraction is
saturating. A Rust panic (the `unwrap()` of a missing line in the
`MoveLeft` / `MoveRight` arms) is modelled by `Option.none`.
-/

/-- Modelled from the spec: `TAB_SPACES` comes from `src/constants.rs`,
which is absent from the sources (only `mod constants; use constants::*;`
remains). The spec fixes only that it is "the fixed number of screen
columns a stored tab character expands to at render time"; we model it as
the concrete constant 4. No claim below depends on its exact value. -/
def TAB_SPACES : Nat := 4

/-- `Vec::resize(n, a)`: truncate to `n` when `n ≤ len`, otherwise pad
with copies of `a` up to length `n`. -/
def vecResize {α : Type} (l : List α) (n : Nat) (a : α) : List α :=
  if n ≤ l.length then l.take n else l ++ List.replicate (n - l.length) a

/-- `char::default()` in Rust is the NUL character. -/
def charDefault : Char := Char.ofNat 0

/-- `struct Buffer { cx: usize, lines: Vec<Vec<char>> }` (main.rs:41). -/
structure Buffer where
  cx : Nat
  lines : List (List Char)
  deriving DecidableEq, Repr

/-- The row-growth statement of `Buffer::insert` (main.rs:49):
`if self.lines.get_mut(y).is_none() { self.lines.resize(y + 1, Vec::new()) }`. -/
def ensureRow (lines : List (List Char)) (y : Nat) : List (List Char) :=
  if (lines[y]?).isNone then vecResize lines (y + 1) [] else lines

/-- The column-padding statement of `Buffer::insert` (main.rs:54):
`if line.get_mut(x).is_none() { line.resize(x + 1, char::default()) }`. -/
def ensureCol (ln : List Char) (x : Nat) : List Char :=
  if (ln[x]?).isNone then vecResize ln (x + 1) charDefault else ln

/-- `Buffer::insert` (main.rs:47): a no-op for `'\n'`; otherwise grows
`lines` to `y + 1` rows when row `y` is missing, pads the row with NUL to
length `x + 1` when index `x` is missing, then `Vec::insert`s `char` at
`x`. -/
def Buffer.insert (b : Buffer) (x y : Nat) (char : Char) : Buffer :=
  if char = '\n' then b
  else
    let lines0 := ensureRow b.lines y
    let line0 := ensureCol (lines0.getD y []) x
    { b with lines := lines0.set y (line0.insertIdx x char) }

/-- `Buffer::remove` (main.rs:61): removes the character at `(x, y)` when
row `y` exists and holds index `x`; otherwise does nothing. -/
def Buffer.remove (b : Buffer) (x y : Nat) : Buffer :=
  match b.lines[y]? with
  | some ln =>
      if (ln[x]?).isSome then { b with lines := b.lines.set y (ln.eraseIdx x) } else b
  | none => b

/-- `Buffer::len` (main.rs:68): display length of row `line_n`, counting
each tab as `TAB_SPACES` columns; 0 for a missing or empty row. -/
def Buffer.len (b : Buffer) (lineN : Nat) : Nat :=
  match b.lines[lineN]? with
  | some ln =>
      if ln.isEmpty then 0
      else ln.length + ln.count '\t' * (TAB_SPACES - 1)
  | none => 0

/-- Reading the character stored at `(x, y)`: `lines.get(y)` then
`.get(x)` (the observation the spec's read-back property is about). -/
def Buffer.charAt (b : Buffer) (x y : Nat) : Option Char :=
  (b.lines[y]?).bind (fun ln => ln[x]?)

/-- `enum Mode` (main.rs:20). -/
inductive Mode where
  | Normal
  | Insert
  deriving DecidableEq, Repr

/-- `enum Actions` (main.rs:26). -/
inductive Actions where
  | MoveUp
  | MoveDown
  | MoveLeft
  | MoveRight
  | NewLine
  | Backspace
  | ModeToNormal
  | ModeToInsert
  | AddChar (char : Char)
  | Tab
  | DeleteChar
  | Exit
  deriving DecidableEq, Repr

/-- The editor state the action loop mutates (main.rs:78, minus the
rendering-only fields). -/
structure Editor where
  cy : Nat
  mode : Mode
  buffer : Buffer
  deriving DecidableEq, Repr

/-- One iteration of the action `match` in `Editor::work` (main.rs:208):
applies a single action to the state. `none` models a panic — the only
panic path is the `.unwrap()` of `self.buffer.lines.get(self.cy)` in the
`MoveLeft` and `MoveRight` arms; every other arm is total. -/
def Editor.work1 (e : Editor) : Actions → Option Editor
  | .Exit => some e
  | .MoveUp =>
      some { e with
        cy := e.cy - 1,
        buffer := { e.buffer with cx := e.buffer.len (e.cy - 1) - 1 } }
  | .MoveDown =>
      if (e.buffer.lines[e.cy + 1]?).isSome then
        some { e with
          cy := e.cy + 1,
          buffer := { e.buffer with cx := e.buffer.len (e.cy + 1) - 1 } }
      else some e
  | .MoveLeft =>
      match e.buffer.lines[e.cy]? with
      | none => none
      | some ln =>
          match ln[e.buffer.cx - 1]? with
          | some char =>
              some { e with buffer := { e.buffer with
                cx := e.buffer.cx - (if char = '\t' then TAB_SPACES else 1) } }
          | none => some e
  | .MoveRight =>
      match e.buffer.lines[e.cy]? with
      | none => none
      | some ln =>
          match ln[e.buffer.cx + 1]? with
          | some char =>
              some { e with buffer := { e.buffer with
                cx := e.buffer.cx + (if char = '\t' then TAB_SPACES else 1) } }
          | none => some e
  | .NewLine =>
      some { e with
        cy := e.cy + 1,
        buffer := { e.buffer.insert e.buffer.cx e.cy '\n' with cx := 0 } }
  | .Backspace =>
      if e.buffer.cx > 0 then
        some { e with buffer :=
          { e.buffer.remove (e.buffer.cx - 1) e.cy with cx := e.buffer.cx - 1 } }
      else some { e with cy := e.cy - 1 }
  | .ModeToNormal => some { e with mode := .Normal }
  | .ModeToInsert => some { e with mode := .Insert }
  | .AddChar char =>
      some { e with buffer :=
        { e.buffer.insert e.buffer.cx e.cy char with cx := e.buffer.cx + 1 } }
  | .Tab =>
      some { e with buffer :=
        { e.buffer.insert e.buffer.cx e.cy '\t' with cx := e.buffer.cx + 1 } }
  | .DeleteChar =>
      some { e with buffer := e.buffer.remove e.buffer.cx e.cy }

/-- Which actions `Editor::handle_event` (main.rs:284) can produce in each
mode, abstracting over the concrete key codes: arrows are
mode-independent; `Exit`, `ModeToInsert`, `DeleteChar` arise only in
Normal mode; `ModeToNormal`, `Backspace`, `NewLine`, `AddChar`, `Tab`
only in Insert mode. -/
def producible (m : Mode) : Actions → Bool
  | .MoveUp | .MoveDown | .MoveLeft | .MoveRight => true
  | .Exit | .ModeToInsert | .DeleteChar =>
      match m with | .Normal => true | .Insert => false
  | .ModeToNormal | .Backspace | .NewLine | .AddChar _ | .Tab =>
      match m with | .Insert => true | .Normal => false

/-- The startup state built in `main` (main.rs:343): one empty line, both
cursor coordinates 0, Normal mode. -/
def initEditor : Editor :=
  { cy := 0, mode := .Normal, buffer := { cx := 0, lines := [[]] } }

/-- The editor states reachable from startup through actions the event
handler can produce in the current mode (a panic is not a state). -/
inductive Reachable : Editor → Prop where
  | init : Reachable initEditor
  | step (e e' : Editor) (a : Actions) :
      Reachable e → producible e.mode a = true → e.work1 a = some e' → Reachable e'

/-- Run a list of actions from a state, propagating a panic. -/
def runActs (e : Editor) : List Actions → Option Editor
  | [] => some e
  | a :: rest => (e.work1 a).bind (fun e' => runActs e' rest)

/-- Apply one action `n` times, propagating a panic. -/
def iterA (a : Actions) : Nat → Editor → Option Editor
  | 0, e => some e
  | n + 1, e => (e.work1 a).bind (iterA a n)

/-- A buffer operation: one `insert` or `remove` call. -/
inductive BufOp where
  | ins (x y : Nat) (char : Char)
  | rem (x y : Nat)
  deriving DecidableEq, Repr

/-- Apply one buffer operation. -/
def applyOp (b : Buffer) : BufOp → Buffer
  | .ins x y char => b.insert x y char
  | .rem x y => b.remove x y

/-- Apply a sequence of buffer operations in order. -/
def applyOps (b : Buffer) (ops : List BufOp) : Buffer := ops.foldl applyOp b

/-- The buffer as initialized in `main` (main.rs:351): one empty line. -/
def initBuffer : Buffer := { cx := 0, lines := [[]] }

/-- Replace only the buffer cursor column of an editor state. -/
def setBufCx (e : Editor) (n : Nat) : Editor :=
  { e with buffer := { e.buffer with cx := n } }

/-! ## Basic facts about the embedded operations -/

theorem isNone_getElem_iff {α : Type} (l : List α) (i : Nat) :
    (l[i]?).isNone = true ↔ l.length ≤ i := by
  rw [Option.isNone_iff_eq_none, List.getElem?_eq_none_iff]

theorem isSome_getElem_iff {α : Type} (l : List α) (i : Nat) :
    (l[i]?).isSome = true ↔ i < l.length := by
  rw [Option.isSome_iff_exists]
  constructor
  · rintro ⟨a, ha⟩
    exact (List.getElem?_eq_some.mp ha).1
  · intro h
    exact ⟨l[i], List.getElem?_eq_getElem h⟩

theorem vecResize_length {α : Type} (l : List α) (n : Nat) (a : α) :
    (vecResize l n a).length = n := by
  unfold vecResize
  split
  · rw [List.length_take]
    omega
  · rw [List.length_append, List.length_replicate]
    omega

theorem lt_length_ensureRow (lines : List (List Char)) (y : Nat) :
    y < (ensureRow lines y).length := by
  unfold ensureRow
  split
  · rw [vecResize_length]
    omega
  · rename_i h
    rw [isNone_getElem_iff] at h
    omega

theorem length_le_ensureRow (lines : List (List Char)) (y : Nat) :
    lines.length ≤ (ensureRow lines y).length := by
  unfold ensureRow
  split
  · rename_i h
    rw [isNone_getElem_iff] at h
    rw [vecResize_length]
    omega
  · exact Nat.le_refl _

theorem ensureRow_eq_of_lt (lines : List (List Char)) (y : Nat) (h : y < lines.length) :
    ensureRow lines y = lines := by
  unfold ensureRow
  rw [if_neg]
  simp only [isNone_getElem_iff]
  omega

theorem le_length_ensureCol (ln : List Char) (x : Nat) :
    x < (ensureCol ln x).length := by
  unfold ensureCol
  split
  · rw [vecResize_length]
    omega
  · rename_i h
    rw [isNone_getElem_iff] at h
    omega

theorem ensureCol_eq_of_lt (ln : List Char) (x : Nat) (h : x < ln.length) :
    ensureCol ln x = ln := by
  unfold ensureCol
  rw [if_neg]
  simp only [isNone_getElem_iff]
  omega

theorem insert_newline_eq (b : Buffer) (x y : Nat) : b.insert x y '\x0a' = b := by
  unfold Buffer.insert
  rw [if_pos rfl]

theorem insert_lines_eq (b : Buffer) (x y : Nat) (char : Char) (h : char ≠ '\x0a') :
    (b.insert x y char).lines =
      (ensureRow b.lines y).set y
        ((ensureCol ((ensureRow b.lines y).getD y []) x).insertIdx x char) := by
  unfold Buffer.insert
  rw [if_neg h]

theorem insert_cx_eq (b : Buffer) (x y : Nat) (char : Char) :
    (b.insert x y char).cx = b.cx := by
  unfold Buffer.insert
  split
  · rfl
  · rfl

theorem length_le_insert_lines (b : Buffer) (x y : Nat) (char : Char) :
    b.lines.length ≤ (b.insert x y char).lines.length := by
  unfold Buffer.insert
  split
  · exact Nat.le_refl _
  · simp only [List.length_set]
    exact length_le_ensureRow b.lines y

theorem remove_lines_length (b : Buffer) (x y : Nat) :
    (b.remove x y).lines.length = b.lines.length := by
  unfold Buffer.remove
  split
  · split
    · simp only [List.length_set]
    · rfl
  · rfl

/-! ## Buffer claims -/

theorem one_le_applyOps_length (ops : List BufOp) :
    ∀ b : Buffer, 1 ≤ b.lines.length → 1 ≤ (applyOps b ops).lines.length := by
  induction ops with
  | nil => intro b hb; exact hb
  | cons op rest ih =>
      intro b hb
      apply ih
      cases op with
      | ins x y char => exact Nat.le_trans hb (length_le_insert_lines b x y char)
      | rem x y => rw [applyOp, remove_lines_length]; exact hb

/-- C2: for every sequence of `Buffer::insert` / `Buffer::remove` calls
starting from the initial buffer (one empty line), the row count stays at
least 1. -/
theorem c2_rows_never_empty (ops : List BufOp) :
    1 ≤ (applyOps initBuffer ops).lines.length :=
  one_le_applyOps_length ops initBuffer (by decide)

theorem c2_rows_never_empty_witness :
    1 ≤ (applyOps initBuffer
      [.ins 0 0 'a', .ins 3 2 'b', .rem 0 0, .rem 7 5, .rem 0 2]).lines.length :=
  c2_rows_never_empty [.ins 0 0 'a', .ins 3 2 'b', .rem 0 0, .rem 7 5, .rem 0 2]

/-- C3 (amended): `insert(x, y, ch)` followed by a read at `(x, y)`
returns `ch` for every `x`, `y` and every `ch` other than `'\n'` (for
`'\n'` the insert is a no-op and nothing is written). -/
theorem c3_insert_then_read (b : Buffer) (x y : Nat) (char : Char) (h : char ≠ '\x0a') :
    (b.insert x y char).charAt x y = some char := by
  unfold Buffer.charAt
  rw [insert_lines_eq b x y char h]
  rw [List.getElem?_set_self (lt_length_ensureRow b.lines y)]
  rw [Option.some_bind]
  have hx : x ≤ (ensureCol ((ensureRow b.lines y).getD y []) x).length :=
    Nat.le_of_lt (le_length_ensureCol _ x)
  have hlen : (List.insertIdx x char (ensureCol ((ensureRow b.lines y).getD y []) x)).length =
      (ensureCol ((ensureRow b.lines y).getD y []) x).length + 1 :=
    List.length_insertIdx x _ hx
  rw [List.getElem?_eq_getElem (by omega)]
  rw [List.getElem_insertIdx_self _ char x hx]

/-- C3 counterexample: the claim fails as stated for `ch = '\n'` —
`insert` filters the newline out, so the read at `(0, 0)` on the initial
buffer returns the empty row's missing index, not `'\n'`. -/
theorem c3_counterexample :
    ¬ (initBuffer.insert 0 0 '\x0a').charAt 0 0 = some '\x0a' := by decide

theorem c3_insert_then_read_witness :
    (initBuffer.insert 2 1 'z').charAt 2 1 = some 'z' :=
  c3_insert_then_read initBuffer 2 1 'z' (by decide)

/-- C7: `remove(x, y)` on a position holding no character (missing row or
out-of-range column) leaves the whole buffer unchanged. -/
theorem c7_remove_noop (b : Buffer) (x y : Nat) (h : b.charAt x y = none) :
    b.remove x y = b := by
  unfold Buffer.charAt at h
  unfold Buffer.remove
  split
  · rename_i ln hln
    rw [hln, Option.some_bind] at h
    rw [if_neg]
    simp only [h, Option.isSome_none, Bool.false_eq_true, not_false_eq_true]
  · rfl

theorem c7_remove_noop_witness :
    initBuffer.remove 5 0 = initBuffer ∧ initBuffer.remove 0 3 = initBuffer :=
  ⟨c7_remove_noop initBuffer 5 0 (by decide), c7_remove_noop initBuffer 0 3 (by decide)⟩

/-- C6 counterexample: inserting past the end of a row pads it with NUL
characters that `remove` does not take back — on the initial buffer,
`insert(1, 0, 'a')` then `remove(1, 0)` turns row 0 from `[]` into two
NULs. -/
theorem c6_counterexample :
    ¬ ((initBuffer.insert 1 0 'a').remove 1 0).lines[0]? = initBuffer.lines[0]? := by
  decide

/-- C6 (amended): when `ch ≠ '\n'`, row `y` exists and `x` is within the
row (so the insert neither grows the row list nor pads the row),
`insert(x, y, ch)` followed by `remove(x, y)` restores the line at row
`y` to its pre-insert content. -/
theorem c6_insert_remove_roundtrip (b : Buffer) (x y : Nat) (char : Char) (ln : List Char)
    (hch : char ≠ '\x0a') (hy : b.lines[y]? = some ln) (hx : x < ln.length) :
    ((b.insert x y char).remove x y).lines[y]? = some ln := by
  have hylt : y < b.lines.length := (List.getElem?_eq_some.mp hy).1
  have hrow : ensureRow b.lines y = b.lines := ensureRow_eq_of_lt b.lines y hylt
  have hgetD : (ensureRow b.lines y).getD y [] = ln := by
    rw [hrow, List.getD_eq_getElem?_getD, hy, Option.getD_some]
  have hcol : ensureCol ((ensureRow b.lines y).getD y []) x = ln := by
    rw [hgetD]
    exact ensureCol_eq_of_lt ln x hx
  have hins : (b.insert x y char).lines = b.lines.set y (List.insertIdx x char ln) := by
    rw [insert_lines_eq b x y char hch, hcol, hrow]
  have hlen : (List.insertIdx x char ln).length = ln.length + 1 :=
    List.length_insertIdx x ln (Nat.le_of_lt hx)
  unfold Buffer.remove
  rw [hins]
  split
  · rename_i ln2 hln2
    rw [List.getElem?_set_self (by omega)] at hln2
    have hln2' : ln2 = List.insertIdx x char ln := by
      injection hln2.symm
    rw [if_pos]
    · simp only [List.set_set, hln2', List.eraseIdx_insertIdx]
      rw [List.getElem?_set_self (by omega)]
    · rw [hln2']
      rw [isSome_getElem_iff]
      omega
  · rename_i hnone
    rw [List.getElem?_set_self (by omega)] at hnone
    exact absurd hnone (by simp)

theorem c6_insert_remove_roundtrip_witness :
    ((Buffer.mk 0 [['a', 'b']]).insert 0 0 'q').remove 0 0 |>.lines[0]? = some ['a', 'b'] :=
  c6_insert_remove_roundtrip (Buffer.mk 0 [['a', 'b']]) 0 0 'q' ['a', 'b']
    (by decide) (by decide) (by decide)

/-! ## Editor claims -/

/-- C1 (refuted — the code has a panic path): the state with `cy = 1`
over a single-line buffer is reachable from startup (switch to Insert
mode, then `NewLine`: `insert` filters the `'\n'` so no row is added while
`cy` is incremented), and applying `MoveLeft` there hits the
`self.buffer.lines.get(self.cy).unwrap()` of the `MoveLeft` arm on a
missing row — a panic, modelled as `none`, not a no-op. -/
theorem c1_moveLeft_panics :
    Reachable { cy := 1, mode := Mode.Insert, buffer := { cx := 0, lines := [[]] } } ∧
    Editor.work1 { cy := 1, mode := Mode.Insert, buffer := { cx := 0, lines := [[]] } }
      Actions.MoveLeft = none := by
  constructor
  · have h1 : Reachable { cy := 0, mode := Mode.Insert, buffer := { cx := 0, lines := [[]] } } :=
      Reachable.step initEditor
        { cy := 0, mode := Mode.Insert, buffer := { cx := 0, lines := [[]] } }
        Actions.ModeToInsert Reachable.init (by decide) (by decide)
    exact Reachable.step
      { cy := 0, mode := Mode.Insert, buffer := { cx := 0, lines := [[]] } }
      { cy := 1, mode := Mode.Insert, buffer := { cx := 0, lines := [[]] } }
      Actions.NewLine h1 (by decide) (by decide)
  · decide

/-- C4 counterexample: from the startup state (which satisfies the bound
`cy < lines.length`), `NewLine` yields `cy = 1` over a buffer that still
has a single row, violating `cy ∈ [0, lines.length - 1]`. -/
theorem c4_counterexample :
    initEditor.cy < initEditor.buffer.lines.length ∧
    (initEditor.work1 Actions.NewLine).map
        (fun e => decide (e.cy < e.buffer.lines.length)) = some false := by
  decide

/-- C4 (amended): every action except `NewLine` preserves the cursor-row
bound `cy ∈ [0, lines.length - 1]` (whenever it yields a state at all);
`NewLine` is the one action that can push `cy` past the last row. -/
theorem c4_cy_bound_preserved (e e' : Editor) (a : Actions) (ha : a ≠ Actions.NewLine)
    (hcy : e.cy < e.buffer.lines.length) (hstep : e.work1 a = some e') :
    e'.cy < e'.buffer.lines.length := by
  cases a with
  | NewLine => exact absurd rfl ha
  | Exit =>
      simp only [Editor.work1, Option.some.injEq] at hstep
      subst hstep
      exact hcy
  | MoveUp =>
      simp only [Editor.work1, Option.some.injEq] at hstep
      subst hstep
      dsimp only
      omega
  | MoveDown =>
      simp only [Editor.work1] at hstep
      split at hstep
      · rename_i hnext
        rw [isSome_getElem_iff] at hnext
        simp only [Option.some.injEq] at hstep
        subst hstep
        dsimp only
        omega
      · simp only [Option.some.injEq] at hstep
        subst hstep
        exact hcy
  | MoveLeft =>
      simp only [Editor.work1] at hstep
      split at hstep
      · simp at hstep
      · split at hstep <;> simp only [Option.some.injEq] at hstep <;> subst hstep <;> exact hcy
  | MoveRight =>
      simp only [Editor.work1] at hstep
      split at hstep
      · simp at hstep
      · split at hstep <;> simp only [Option.some.injEq] at hstep <;> subst hstep <;> exact hcy
  | Backspace =>
      simp only [Editor.work1] at hstep
      split at hstep
      · simp only [Option.some.injEq] at hstep
        subst hstep
        dsimp only
        rw [remove_lines_length]
        exact hcy
      · simp only [Option.some.injEq] at hstep
        subst hstep
        dsimp only
        omega
  | ModeToNormal =>
      simp only [Editor.work1, Option.some.injEq] at hstep
      subst hstep
      exact hcy
  | ModeToInsert =>
      simp only [Editor.work1, Option.some.injEq] at hstep
      subst hstep
      exact hcy
  | AddChar ch =>
      simp only [Editor.work1, Option.some.injEq] at hstep
      subst hstep
      dsimp only
      exact Nat.lt_of_lt_of_le hcy (length_le_insert_lines _ _ _ _)
  | Tab =>
      simp only [Editor.work1, Option.some.injEq] at hstep
      subst hstep
      dsimp only
      exact Nat.lt_of_lt_of_le hcy (length_le_insert_lines _ _ _ _)
  | DeleteChar =>
      simp only [Editor.work1, Option.some.injEq] at hstep
      subst hstep
      dsimp only
      rw [remove_lines_length]
      exact hcy

theorem c4_cy_bound_preserved_witness :
    ({ cy := 0, mode := Mode.Normal, buffer := { cx := 0, lines := [[]] } } : Editor).cy <
      ({ cy := 0, mode := Mode.Normal,
          buffer := { cx := 0, lines := [[]] } } : Editor).buffer.lines.length :=
  c4_cy_bound_preserved initEditor
    { cy := 0, mode := Mode.Normal, buffer := { cx := 0, lines := [[]] } }
    Actions.MoveUp (by decide) (by decide) (by decide)

/-- C5 counterexample: the scenario fails as stated already at its first
checkpoint — typing `h` then `i` into the empty line stores
`['h', 'i', NUL]`, not `['h', 'i']`, because `insert` at the end of a row
first resizes the row to `x + 1` with a NUL pad and only then inserts. -/
theorem c5_counterexample :
    ¬ (runActs initEditor [Actions.ModeToInsert, Actions.AddChar 'h', Actions.AddChar 'i']).map
        (fun e => decide (e.buffer.lines[0]? = some ['h', 'i'] ∧ e.buffer.cx = 2 ∧ e.cy = 0)) =
      some true := by
  decide

/-- C5 (amended): from startup, `ModeToInsert, AddChar 'h', AddChar 'i'`
yields line 0 = `['h', 'i', NUL]` (with the NUL pad `insert` leaves when
writing at the end of a row), `cx = 2`, `cy = 0`; applying `NewLine` then
yields `cy = 1`, `cx = 0` and leaves the buffer rows completely unchanged
— in particular line 0 keeps its content and no line exists at row 1. -/
theorem c5_scenario :
    runActs initEditor [Actions.ModeToInsert, Actions.AddChar 'h', Actions.AddChar 'i'] =
      some { cy := 0, mode := Mode.Insert,
             buffer := { cx := 2, lines := [['h', 'i', charDefault]] } } ∧
    runActs initEditor
        [Actions.ModeToInsert, Actions.AddChar 'h', Actions.AddChar 'i', Actions.NewLine] =
      some { cy := 1, mode := Mode.Insert,
             buffer := { cx := 0, lines := [['h', 'i', charDefault]] } } := by
  constructor
  · decide
  · decide

/-- C8: applying `Backspace` in any state whose buffer cursor column is 0
only decrements `cy` (saturating at 0): the buffer — its `cx` column and
all its lines — is untouched, so no character is removed and no lines are
merged. -/
theorem c8_backspace_at_col0 (e : Editor) (h : e.buffer.cx = 0) :
    e.work1 Actions.Backspace = some { e with cy := e.cy - 1 } := by
  simp [Editor.work1, h]

theorem c8_backspace_at_col0_witness :
    Editor.work1 { cy := 1, mode := Mode.Insert, buffer := { cx := 0, lines := [['a'], []] } }
        Actions.Backspace =
      some { cy := 0, mode := Mode.Insert, buffer := { cx := 0, lines := [['a'], []] } } :=
  c8_backspace_at_col0
    { cy := 1, mode := Mode.Insert, buffer := { cx := 0, lines := [['a'], []] } } rfl

/-- C9: when the buffer cursor sits at the last character position of the
current line (`cx = length - 1` of a non-empty existing line), applying
`MoveRight` any number of times leaves the state — in particular `cx` —
unchanged: the guard looks for a character at `cx + 1` and finds none. -/
theorem c9_moveRight_at_end (e : Editor) (ln : List Char) (n : Nat)
    (hln : e.buffer.lines[e.cy]? = some ln) (hne : ln ≠ [])
    (hcx : e.buffer.cx = ln.length - 1) :
    iterA Actions.MoveRight n e = some e := by
  have hpos : 0 < ln.length := List.length_pos.mpr hne
  have hnone : ln[e.buffer.cx + 1]? = none := by
    rw [List.getElem?_eq_none_iff]
    omega
  have hfix : e.work1 Actions.MoveRight = some e := by
    simp only [Editor.work1, hln, hnone]
  induction n with
  | zero => rfl
  | succ m ih =>
      rw [iterA, hfix, Option.some_bind]
      exact ih

theorem c9_moveRight_at_end_witness :
    iterA Actions.MoveRight 3
        { cy := 0, mode := Mode.Normal, buffer := { cx := 1, lines := [['a', 'b']] } } =
      some { cy := 0, mode := Mode.Normal, buffer := { cx := 1, lines := [['a', 'b']] } } :=
  c9_moveRight_at_end
    { cy := 0, mode := Mode.Normal, buffer := { cx := 1, lines := [['a', 'b']] } }
    ['a', 'b'] 3 (by decide) (by decide) (by decide)

/-- C10: when the character `MoveLeft` examines (at `cx - 1`) is a tab,
the buffer cursor column drops by `TAB_SPACES` (saturating at 0), and
when the character `MoveRight` examines (at `cx + 1`) is a tab, it grows
by `TAB_SPACES`; for any other character the stride is 1. -/
theorem c10_tab_stride (e : Editor) (ln : List Char)
    (hln : e.buffer.lines[e.cy]? = some ln) :
    (ln[e.buffer.cx - 1]? = some '\t' →
        e.work1 Actions.MoveLeft = some (setBufCx e (e.buffer.cx - TAB_SPACES))) ∧
    (∀ c, ln[e.buffer.cx - 1]? = some c → c ≠ '\t' →
        e.work1 Actions.MoveLeft = some (setBufCx e (e.buffer.cx - 1))) ∧
    (ln[e.buffer.cx + 1]? = some '\t' →
        e.work1 Actions.MoveRight = some (setBufCx e (e.buffer.cx + TAB_SPACES))) ∧
    (∀ c, ln[e.buffer.cx + 1]? = some c → c ≠ '\t' →
        e.work1 Actions.MoveRight = some (setBufCx e (e.buffer.cx + 1))) := by
  refine ⟨fun h => ?_, fun c h hc => ?_, fun h => ?_, fun c h hc => ?_⟩
  · simp [Editor.work1, hln, h, setBufCx]
  · simp [Editor.work1, hln, h, hc, setBufCx]
  · simp [Editor.work1, hln, h, setBufCx]
  · simp [Editor.work1, hln, h, hc, setBufCx]

theorem c10_tab_stride_witness :
    Editor.work1
        { cy := 0, mode := Mode.Normal, buffer := { cx := 2, lines := [['a', '\t', 'b', '\t']] } }
        Actions.MoveLeft =
      some { cy := 0, mode := Mode.Normal,
             buffer := { cx := 0, lines := [['a', '\t', 'b', '\t']] } } ∧
    Editor.work1
        { cy := 0, mode := Mode.Normal, buffer := { cx := 2, lines := [['a', '\t', 'b', '\t']] } }
        Actions.MoveRight =
      some { cy := 0, mode := Mode.Normal,
             buffer := { cx := 6, lines := [['a', '\t', 'b', '\t']] } } ∧
    Editor.work1
        { cy := 0, mode := Mode.Normal, buffer := { cx := 1, lines := [['a', 'b', 'c']] } }
        Actions.MoveLeft =
      some { cy := 0, mode := Mode.Normal, buffer := { cx := 0, lines := [['a', 'b', 'c']] } } ∧
    Editor.work1
        { cy := 0, mode := Mode.Normal, buffer := { cx := 1, lines := [['a', 'b', 'c']] } }
        Actions.MoveRight =
      some { cy := 0, mode := Mode.Normal, buffer := { cx := 2, lines := [['a', 'b', 'c']] } } :=
  ⟨(c10_tab_stride _ ['a', '\t', 'b', '\t'] (by decide)).1 (by decide),
   (c10_tab_stride _ ['a', '\t', 'b', '\t'] (by decide)).2.2.1 (by decide),
   (c10_tab_stride _ ['a', 'b', 'c'] (by decide)).2.1 'a' (by decide) (by decide),
   (c10_tab_stride _ ['a', 'b', 'c'] (by decide)).2.2.2 'c' (by decide) (by decide)⟩
